import Mathlib

/-!
Shallow embedding of the RDF graph store, the SPARQL-subset CONSTRUCT
evaluator and the SHACL-subset shape validator of the
`modelling-tool-tutorials` repository, together with the concrete example
graphs, queries and shapes appearing in `src/rdf-tools-tutorial.ipynb`.

The repository is a notebook that delegates parsing, querying and
validation to external libraries (rdflib, pySHACL, pyld); its specification
describes the minimal semantics a from-scratch implementation would need.
The engine definitions below are therefore modelled from the spec
(sections 3, 4.1, 4.2 and 4.3), while the graphs, queries and shapes are
transcribed from the notebook source.
-/

/-- An RDF term: an IRI or a typed literal (lexical value plus datatype
IRI).  Spec section 3: objects may be IRIs or typed literals; IRIs are
internally always stored expanded. -/
inductive Term where
  | iri (value : String)
  | lit (value : String) (datatype : String)
deriving DecidableEq, Repr

/-- A triple: subject and predicate are IRIs, the object is a `Term`.
Spec section 3. -/
structure Triple where
  subject : String
  predicate : String
  object : Term
deriving DecidableEq, Repr

/-- A graph is an unordered set of triples with set semantics; duplicates
collapse (spec section 3). -/
abbrev Graph := Finset Triple

/-- Adding one triple to a graph: set insertion, duplicates collapse. -/
def Graph.add (g : Graph) (t : Triple) : Graph := insert t g

/-- Number of triples in a graph. -/
def Graph.size (g : Graph) : Nat := g.card

/-- Building a graph from a list of parsed triples by repeated insertion. -/
def Graph.ofList (l : List Triple) : Graph := l.foldl Graph.add ∅

theorem stringData_injective : Function.Injective String.data := by
  intro a b h
  exact String.ext h

/-- Canonical sort key for terms, used only to list a graph's triples in a
deterministic order (char lists, whose lexicographic order the kernel can
evaluate). -/
def Term.key : Term → Bool ×ₗ List Char ×ₗ List Char
  | .iri v => toLex (false, toLex (v.data, []))
  | .lit v d => toLex (true, toLex (v.data, d.data))

theorem termKey_injective : Function.Injective Term.key := by
  intro a b h
  cases a <;> cases b <;> simp [Term.key] at h
  · simp [stringData_injective h]
  · simp [stringData_injective h.1, stringData_injective h.2]

/-- Canonical sort key for triples. -/
def Triple.key (t : Triple) :
    List Char ×ₗ List Char ×ₗ Bool ×ₗ List Char ×ₗ List Char :=
  toLex (t.subject.data, toLex (t.predicate.data, t.object.key))

theorem tripleKey_injective : Function.Injective Triple.key := by
  intro a b h
  obtain ⟨as, ap, ao⟩ := a
  obtain ⟨bs, bp, bo⟩ := b
  simp [Triple.key] at h
  obtain ⟨h1, h2, h3⟩ := h
  simp [stringData_injective h1, stringData_injective h2, termKey_injective h3]

instance : LinearOrder Triple := LinearOrder.lift' Triple.key tripleKey_injective

/-- Canonical sorted listing of a finite set, by insertion sort (which the
kernel can evaluate, unlike merge sort). -/
def Finset.sortedList {α : Type} [LinearOrder α] (s : Finset α) : List α :=
  Quot.liftOn s.val (fun l => l.insertionSort (fun a b => a ≤ b))
    (fun _ _ h => List.eq_of_perm_of_sorted
      ((List.perm_insertionSort _ _).trans (h.trans (List.perm_insertionSort _ _).symm))
      (List.sorted_insertionSort _ _) (List.sorted_insertionSort _ _))

/-- The triples of a graph, listed in the canonical order. -/
def Graph.toTripleList (g : Graph) : List Triple := g.sortedList

/-! ### IRIs of the notebook's example graphs -/

def rdfType : String := "http://www.w3.org/1999/02/22-rdf-syntax-ns#type"

def rdfsSubClassOf : String := "http://www.w3.org/2000/01/rdf-schema#subClassOf"

def xsdDouble : String := "http://www.w3.org/2001/XMLSchema#double"

def xsdString : String := "http://www.w3.org/2001/XMLSchema#string"

def geomPoint : String := "https://my-url.com/metamodel/geometry#Point"

def geomPosition : String := "https://my-url.com/metamodel/geometry#Position"

def geomPositionLength : String := "https://my-url.com/metamodel/geometry#PositionLength"

def geomFrame : String := "https://my-url.com/metamodel/geometry#Frame"

def geomPositionReference : String := "https://my-url.com/metamodel/geometry#PositionReference"

def geomPositionCoordinate : String := "https://my-url.com/metamodel/geometry#PositionCoordinate"

def geomVectorXYZ : String := "https://my-url.com/metamodel/geometry#VectorXYZ"

def geomOfPoint : String := "https://my-url.com/metamodel/geometry#of-point"

def geomWrtPoint : String := "https://my-url.com/metamodel/geometry#with-respect-to-point"

def geomOfPosition : String := "https://my-url.com/metamodel/geometry#of-position"

def geomLength : String := "https://my-url.com/metamodel/geometry#length"

def geomOrigin : String := "https://my-url.com/metamodel/geometry#origin"

def geomAsSeenBy : String := "https://my-url.com/metamodel/geometry#as-seen-by"

def geomX : String := "https://my-url.com/metamodel/geometry#x"

def geomY : String := "https://my-url.com/metamodel/geometry#y"

def geomZ : String := "https://my-url.com/metamodel/geometry#z"

def boxOrigin : String := "https://my-url.com/model/tutorial/box-origin"

def tableOrigin : String := "https://my-url.com/model/tutorial/table-origin"

def positionBoxTable : String := "https://my-url.com/model/tutorial/position-box-table"

def boxDistance : String := "https://my-url.com/model/tutorial/box-distance"

def frameTable : String := "https://my-url.com/model/tutorial/frame-table"

def positionCoordBoxTable : String := "https://my-url.com/model/tutorial/position-coord-box-table"

/-- The triples produced by parsing `jsonld_graph_str` (two Points, one
Position linking them, one PositionLength); the notebook prints the same
graph serialized as Turtle, which fixes this triple set.  The length
literal's lexical form `1e+01` is the one shown in that serialization. -/
def jsonldGraphTriples : List Triple := [
  ⟨boxOrigin, rdfType, .iri geomPoint⟩,
  ⟨tableOrigin, rdfType, .iri geomPoint⟩,
  ⟨positionBoxTable, rdfType, .iri geomPosition⟩,
  ⟨positionBoxTable, geomOfPoint, .iri boxOrigin⟩,
  ⟨positionBoxTable, geomWrtPoint, .iri tableOrigin⟩,
  ⟨boxDistance, rdfType, .iri geomPositionLength⟩,
  ⟨boxDistance, geomOfPosition, .iri positionBoxTable⟩,
  ⟨boxDistance, geomLength, .lit "1e+01" xsdDouble⟩]

/-- The triples of `jsonld_coordinate_extension`.  Its `@context` does not
define the `xsd` term, so the datatype of the x, y, z literals stays the
opaque IRI `xsd:double` (unknown types are preserved, spec 4.1). -/
def coordExtensionTriples : List Triple := [
  ⟨frameTable, rdfType, .iri geomFrame⟩,
  ⟨frameTable, geomOrigin, .iri tableOrigin⟩,
  ⟨positionCoordBoxTable, rdfType, .iri geomPositionReference⟩,
  ⟨positionCoordBoxTable, rdfType, .iri geomPositionCoordinate⟩,
  ⟨positionCoordBoxTable, rdfType, .iri geomVectorXYZ⟩,
  ⟨positionCoordBoxTable, geomOfPosition, .iri positionBoxTable⟩,
  ⟨positionCoordBoxTable, geomAsSeenBy, .iri frameTable⟩,
  ⟨positionCoordBoxTable, geomX, .lit "-0.000648" "xsd:double"⟩,
  ⟨positionCoordBoxTable, geomY, .lit "-0.000166" "xsd:double"⟩,
  ⟨positionCoordBoxTable, geomZ, .lit "0.084487" "xsd:double"⟩]

/-- The graph parsed from `jsonld_graph_str` alone. -/
def positionGraph : Graph := Graph.ofList jsonldGraphTriples

/-- `position_graph` after also parsing `jsonld_coordinate_extension`. -/
def fullGraph : Graph := Graph.ofList (jsonldGraphTriples ++ coordExtensionTriples)

/-- The triples of `jsonld_coordinate_invalid`: `of-position` points to
`frame-table` (a Frame) and the `as-seen-by` property is absent. -/
def coordInvalidTriples : List Triple := [
  ⟨frameTable, rdfType, .iri geomFrame⟩,
  ⟨frameTable, geomOrigin, .iri tableOrigin⟩,
  ⟨positionCoordBoxTable, rdfType, .iri geomPositionReference⟩,
  ⟨positionCoordBoxTable, rdfType, .iri geomPositionCoordinate⟩,
  ⟨positionCoordBoxTable, rdfType, .iri geomVectorXYZ⟩,
  ⟨positionCoordBoxTable, geomOfPosition, .iri frameTable⟩]

/-- The `invalid_graph` of the notebook: base graph plus the mutated
coordinate extension. -/
def invalidGraph : Graph := Graph.ofList (jsonldGraphTriples ++ coordInvalidTriples)

/-! ### The CONSTRUCT query evaluator.

Modelled from the spec: the repository delegates SPARQL evaluation to
rdflib (not part of the source tree); spec section 4.2 describes the
evaluation strategy: for each pattern triple compute the variable bindings
consistent with existing graph triples, join bindings across pattern
triples by shared variable names (intersection join), then apply the
template triples under the resulting bindings. -/

/-- A pattern term: a SPARQL variable or a constant term. -/
inductive PTerm where
  | var (name : String)
  | const (t : Term)
deriving DecidableEq, Repr

/-- A property path: a plain predicate, an inverse path `^p` or a sequence
`p / q` (spec 4.2 and glossary). -/
inductive PropPath where
  | pred (p : String)
  | inv (q : PropPath)
  | seq (p q : PropPath)
deriving DecidableEq, Repr

/-- One triple pattern of a WHERE clause. -/
structure TriplePattern where
  subj : PTerm
  path : PropPath
  obj : PTerm
deriving DecidableEq, Repr

/-- One triple of a CONSTRUCT template (its predicate is a constant IRI in
all queries of the notebook). -/
structure TemplateTriple where
  subj : PTerm
  pred : String
  obj : PTerm
deriving DecidableEq, Repr

/-- A variable binding, as an association list. -/
abbrev Binding := List (String × Term)

/-- Value of a variable under a binding. -/
def Binding.lookupVar (b : Binding) (v : String) : Option Term :=
  (b.find? (fun p => p.1 == v)).map (fun p => p.2)

/-- Resolving a pattern term under a binding. -/
def PTerm.resolve (pt : PTerm) (b : Binding) : Option Term :=
  match pt with
  | .var v => b.lookupVar v
  | .const t => some t

/-- Every term occurring in the graph, as subject or object. -/
def Graph.termsList (g : Graph) : List Term :=
  (g.toTripleList.flatMap (fun t => [Term.iri t.subject, t.object])).dedup

/-- Does path `p` relate `s` to `o` in `g`?  A plain predicate is triple
membership; an inverse path flips the direction; a sequence chains through
an intermediate term of the graph. -/
def Graph.pathHolds (g : Graph) : PropPath → Term → Term → Bool
  | .pred p, s, o =>
      match s with
      | .iri si => decide (⟨si, p, o⟩ ∈ g)
      | .lit _ _ => false
  | .inv q, s, o => g.pathHolds q o s
  | .seq p q, s, o => g.termsList.any (fun m => g.pathHolds p s m && g.pathHolds q m o)

/-- Does a binding satisfy one triple pattern over `g`? -/
def Graph.matchesPattern (g : Graph) (b : Binding) (tp : TriplePattern) : Bool :=
  match tp.subj.resolve b, tp.obj.resolve b with
  | some s, some o => g.pathHolds tp.path s o
  | _, _ => false

/-- The variables of a pattern term. -/
def PTerm.varList : PTerm → List String
  | .var v => [v]
  | .const _ => []

/-- The variables of a triple pattern. -/
def TriplePattern.varList (tp : TriplePattern) : List String :=
  tp.subj.varList ++ tp.obj.varList

/-- Ordering of variable names by their character lists (which the kernel
can evaluate, unlike the built-in string order). -/
def varLE (a b : String) : Prop := a.data ≤ b.data

instance : DecidableRel varLE := fun a b => inferInstanceAs (Decidable (a.data ≤ b.data))

instance : IsTrans String varLE := ⟨fun _ _ _ => le_trans⟩

instance : IsAntisymm String varLE :=
  ⟨fun _ _ h1 h2 => stringData_injective (le_antisymm h1 h2)⟩

instance : IsTotal String varLE := ⟨fun a b => le_total a.data b.data⟩

/-- The variables of a WHERE clause, in a canonical sorted order. -/
def patternVars (pats : List TriplePattern) : List String :=
  Quot.liftOn (pats.flatMap TriplePattern.varList).toFinset.val
    (fun l => l.insertionSort varLE)
    (fun _ _ h => List.eq_of_perm_of_sorted
      ((List.perm_insertionSort _ _).trans (h.trans (List.perm_insertionSort _ _).symm))
      (List.sorted_insertionSort _ _) (List.sorted_insertionSort _ _))

/-- All candidate bindings mapping each listed variable to some term drawn
from the terms of existing graph triples. -/
def candidateBindings (ts : List Term) : List String → List Binding
  | [] => [[]]
  | v :: vs => (candidateBindings ts vs).flatMap (fun b => ts.map (fun t => (v, t) :: b))

/-- The solution bindings of a WHERE clause: candidate bindings over the
clause's variables that satisfy every triple pattern simultaneously (the
intersection join of spec 4.2). -/
def Graph.solutions (g : Graph) (pats : List TriplePattern) : List Binding :=
  (candidateBindings g.termsList (patternVars pats)).filter
    (fun b => pats.all (g.matchesPattern b))

/-- Applying one template triple under a binding (the subject must resolve
to an IRI). -/
def TemplateTriple.instantiate (tt : TemplateTriple) (b : Binding) : Option Triple :=
  match tt.subj.resolve b, tt.obj.resolve b with
  | some (.iri s), some o => some ⟨s, tt.pred, o⟩
  | _, _ => none

/-- CONSTRUCT evaluation (spec 4.2): apply the template to every solution
binding, collecting the produced triples as a graph. -/
def Graph.construct (g : Graph) (pats : List TriplePattern)
    (tmpl : List TemplateTriple) : Graph :=
  ((g.solutions pats).flatMap (fun b => tmpl.filterMap (fun tt => tt.instantiate b))).toFinset

/-! ### The three notebook queries for `?position geom:as-seen-by ?frame` -/

/-- The shared CONSTRUCT template `?position geom:as-seen-by ?frame`. -/
def queryTemplate : List TemplateTriple := [⟨.var "position", geomAsSeenBy, .var "frame"⟩]

/-- WHERE clause of the first query: class constraints on `?posCoord`
first, then forward chaining to `?position` and `?frame`. -/
def whereClassFirst : List TriplePattern := [
  ⟨.var "posCoord", .pred rdfType, .const (.iri geomPositionCoordinate)⟩,
  ⟨.var "posCoord", .pred rdfType, .const (.iri geomPositionReference)⟩,
  ⟨.var "posCoord", .pred geomOfPosition, .var "position"⟩,
  ⟨.var "posCoord", .pred geomAsSeenBy, .var "frame"⟩]

/-- WHERE clause of the second query: `?position` first, reverse path to
`?posCoord`, then forward to `?frame`. -/
def whereReverseFirst : List TriplePattern := [
  ⟨.var "position", .pred rdfType, .const (.iri geomPosition)⟩,
  ⟨.var "position", .inv (.pred geomOfPosition), .var "posCoord"⟩,
  ⟨.var "posCoord", .pred rdfType, .const (.iri geomPositionReference)⟩,
  ⟨.var "posCoord", .pred geomAsSeenBy, .var "frame"⟩]

/-- WHERE clause of the third query: `?position` first, then the chained
path `^geom:of-position / geom:as-seen-by` to `?frame`. -/
def whereReverseChain : List TriplePattern := [
  ⟨.var "position", .pred rdfType, .const (.iri geomPosition)⟩,
  ⟨.var "position", .seq (.inv (.pred geomOfPosition)) (.pred geomAsSeenBy), .var "frame"⟩]

/-- The singleton result graph all three queries return. -/
def asSeenByResult : Graph := Graph.ofList [⟨positionBoxTable, geomAsSeenBy, .iri frameTable⟩]

/-! ### The SHACL-subset shape validator.

Modelled from the spec: the repository delegates SHACL validation to
pySHACL (not part of the source tree); spec sections 3, 4.3 and 7 describe
the data model of shapes, the validation semantics and the shape-definition
errors a from-scratch implementation would need. -/

instance {e a : Type} [DecidableEq e] [DecidableEq a] : DecidableEq (Except e a) := fun x y =>
  match x, y with
  | .ok u, .ok v =>
      if h : u = v then isTrue (congrArg Except.ok h)
      else isFalse (fun hh => h (Except.ok.inj hh))
  | .error u, .error v =>
      if h : u = v then isTrue (congrArg Except.error h)
      else isFalse (fun hh => h (Except.error.inj hh))
  | .ok _, .error _ => isFalse (fun hh => Except.noConfusion hh)
  | .error _, .ok _ => isFalse (fun hh => Except.noConfusion hh)

/-- The constraint components that can be violated. -/
inductive ShComponent where
  | minCountC
  | maxCountC
  | classC
deriving DecidableEq, Repr

/-- Modelled from the spec: a property shape constrains one predicate path
with an optional expected class of the object and optional min/max
cardinality (spec section 3). -/
structure PropShape where
  path : String
  classConstraint : Option String
  minCount : Option Nat
  maxCount : Option Nat
deriving DecidableEq, Repr

/-- A node shape's property constraint: inline, or a reference by IRI to a
standalone property shape (spec 4.3: no duplication of definition). -/
inductive PropRef where
  | inline (ps : PropShape)
  | ref (name : String)
deriving DecidableEq, Repr

/-- Modelled from the spec: a node shape targets a class of subject nodes
and carries property constraints (spec section 3). -/
structure NodeShape where
  name : String
  targetClass : String
  props : List PropRef
deriving DecidableEq, Repr

/-- A shapes graph: node shapes plus named standalone property shapes. -/
structure ShapesGraph where
  nodeShapes : List NodeShape
  propDefs : List (String × PropShape)
deriving DecidableEq, Repr

/-- Modelled from the spec: one violation record (spec section 3):
constraint kind, source shape (`none` for an anonymous inline shape),
focus node, result path, offending value, expected class, message. -/
structure Violation where
  component : ShComponent
  sourceShape : Option String
  focusNode : String
  resultPath : String
  value : Option Term
  expectedClass : Option String
  message : String
deriving DecidableEq, Repr

/-- A validation report: conforms flag plus the violation records. -/
structure ValidationReport where
  conforms : Bool
  violations : List Violation
deriving DecidableEq, Repr

/-- `conforms` is true iff zero violations were produced (spec 4.3). -/
def ValidationReport.ofViolations (vs : List Violation) : ValidationReport :=
  ⟨vs.isEmpty, vs⟩

/-- Modelled from the spec: shape-definition errors (spec section 7). -/
inductive ShapeError where
  | unresolvedRef (name : String)
  | badCardinality (path : String)
deriving DecidableEq, Repr

/-- The objects of all triples with the given subject and predicate. -/
def Graph.objectsOf (g : Graph) (s : String) (p : String) : List Term :=
  g.toTripleList.filterMap (fun t =>
    if t.subject = s ∧ t.predicate = p then some t.object else none)

/-- The classes directly asserted for a node via rdf:type. -/
def Graph.typesOf (g : Graph) (n : String) : List String :=
  g.toTripleList.filterMap (fun t =>
    if t.subject = n ∧ t.predicate = rdfType then
      match t.object with
      | .iri c => some c
      | .lit _ _ => none
    else none)

/-- Direct superclasses asserted via rdfs:subClassOf. -/
def Graph.directSupers (g : Graph) (c : String) : List String :=
  g.toTripleList.filterMap (fun t =>
    if t.subject = c ∧ t.predicate = rdfsSubClassOf then
      match t.object with
      | .iri d => some d
      | .lit _ _ => none
    else none)

/-- One step of the superclass closure. -/
def superStep (g : Graph) (cs : List String) : List String :=
  (cs ++ cs.flatMap g.directSupers).dedup

/-- All reflexive-transitive superclasses of `c`; the closure is reached
after at most `g.size` iterations. -/
def Graph.superClosure (g : Graph) (c : String) : List String :=
  (superStep g)^[g.size] [c]

/-- Modelled from the spec: is `v` an instance of class `c`, directly or
via the rdfs entailment the notebook's validate calls enable (spec 4.3)? -/
def Graph.isInstanceOf (g : Graph) (v : Term) (c : String) : Bool :=
  match v with
  | .iri n => (g.typesOf n).any (fun tc => decide (c ∈ g.superClosure tc))
  | .lit _ _ => false

/-- Modelled from the spec: check one resolved property shape against one
focus node (spec 4.3): cardinality counts all triples with the focus node
as subject and the shape's path as predicate; the class constraint checks
each value separately.  `src` names the source shape in the emitted
violations; an inline shape is anonymous. -/
def Graph.checkProp (g : Graph) (focus : String) (src : Option String)
    (ps : PropShape) : List Violation :=
  let vals := g.objectsOf focus ps.path
  let minViol : List Violation :=
    match ps.minCount with
    | some m =>
        if vals.length < m then
          [⟨.minCountC, src, focus, ps.path, none, none,
            "Less than " ++ toString m ++ " values on " ++ focus ++ "->" ++ ps.path⟩]
        else []
    | none => []
  let maxViol : List Violation :=
    match ps.maxCount with
    | some m =>
        if m < vals.length then
          [⟨.maxCountC, src, focus, ps.path, none, none,
            "More than " ++ toString m ++ " values on " ++ focus ++ "->" ++ ps.path⟩]
        else []
    | none => []
  let classViol : List Violation :=
    match ps.classConstraint with
    | some c =>
        vals.filterMap (fun v =>
          if g.isInstanceOf v c then none
          else some ⟨.classC, src, focus, ps.path, some v, some c,
            "Value does not have class " ++ c⟩)
    | none => []
  minViol ++ maxViol ++ classViol

/-- minCount must not exceed maxCount when both are given (spec 3, 7). -/
def PropShape.wellFormed (ps : PropShape) : Bool :=
  match ps.minCount, ps.maxCount with
  | some a, some b => decide (a ≤ b)
  | _, _ => true

/-- Admit a well-formed property shape with its source-shape name, or
report the shape-definition error (spec 7). -/
def admitShape (src : Option String) (ps : PropShape) :
    Except ShapeError (Option String × PropShape) :=
  if ps.wellFormed then .ok (src, ps) else .error (.badCardinality ps.path)

/-- Resolve one property constraint of a node shape: an unresolved
reference by IRI is a shape-definition error (spec 7). -/
def resolvePropRef (sg : ShapesGraph) : PropRef → Except ShapeError (Option String × PropShape)
  | .inline ps => admitShape none ps
  | .ref n =>
      match (sg.propDefs.find? (fun p => p.1 == n)).map (fun p => p.2) with
      | some ps => admitShape (some n) ps
      | none => .error (.unresolvedRef n)

/-- Resolve all property constraints of a node shape. -/
def resolvePropRefs (sg : ShapesGraph) :
    List PropRef → Except ShapeError (List (Option String × PropShape))
  | [] => .ok []
  | pr :: rest => do
      let p ← resolvePropRef sg pr
      let ps ← resolvePropRefs sg rest
      pure (p :: ps)

/-- The target (focus) nodes of a node shape: the subjects asserted to
have the target class (spec 4.3). -/
def Graph.focusNodes (g : Graph) (cls : String) : List String :=
  (g.toTripleList.filterMap (fun t =>
    if t.predicate = rdfType ∧ t.object = Term.iri cls then some t.subject else none)).dedup

/-- Modelled from the spec: evaluate one node shape: every resolved
property shape is checked on every focus node (spec 4.3). -/
def Graph.checkNodeShape (g : Graph) (sg : ShapesGraph) (ns : NodeShape) :
    Except ShapeError (List Violation) := do
  let resolved ← resolvePropRefs sg ns.props
  pure ((g.focusNodes ns.targetClass).flatMap (fun f =>
    resolved.flatMap (fun p => g.checkProp f p.1 p.2)))

/-- Evaluate a list of node shapes, concatenating their violations. -/
def checkNodeShapes (g : Graph) (sg : ShapesGraph) :
    List NodeShape → Except ShapeError (List Violation)
  | [] => .ok []
  | ns :: rest => do
      let v ← g.checkNodeShape sg ns
      let vs ← checkNodeShapes g sg rest
      pure (v ++ vs)

/-- Modelled from the spec: the rdfs type entailment enabled by the
notebook's validate calls: assert every superclass of an asserted type.
It is applied to a copy; the data graph itself is never touched (spec 5). -/
def rdfsInferTypes (g : Graph) : Graph :=
  g ∪ Graph.ofList (g.toTripleList.flatMap (fun t =>
    match t with
    | ⟨s, p, .iri c⟩ =>
        if p = rdfType then (g.superClosure c).map (fun d => ⟨s, rdfType, .iri d⟩)
        else []
    | ⟨_, _, .lit _ _⟩ => []))

/-- Modelled from the spec: `validate(dataGraph, shapesGraph)` (spec 4.3):
evaluate every node shape on the rdfs-expanded data graph; conforms iff
zero violations across all applicable shapes and target nodes. -/
def validate (dg : Graph) (sg : ShapesGraph) : Except ShapeError ValidationReport := do
  let vs ← checkNodeShapes (rdfsInferTypes dg) sg sg.nodeShapes
  pure (ValidationReport.ofViolations vs)

/-- Modelled from the spec: a validation run observed together with its
data and shapes graphs after the call: the inference copy is internal and
the inputs are handed back unchanged (spec 4.3 and 5). -/
def validateRun (dg : Graph) (sg : ShapesGraph) :
    Except ShapeError ValidationReport × Graph × ShapesGraph :=
  (validate dg sg, dg, sg)

/-! ### The example shapes graph of `shacl_str` -/

def geomPositionReferenceShape : String :=
  "https://my-url.com/metamodel/geometry#PositionReferenceShape"

def geomAsSeenByShape : String := "https://my-url.com/metamodel/geometry#AsSeenByShape"

def geomPositionCoordinateShape : String :=
  "https://my-url.com/metamodel/geometry#PositionCoordinateShape"

/-- The standalone `sh:PropertyShape geom:AsSeenByShape` of `shacl_str`. -/
def asSeenByShape : PropShape := ⟨geomAsSeenBy, some geomFrame, some 1, some 1⟩

/-- The anonymous property shape inlined in `geom:PositionReferenceShape`. -/
def ofPositionShape : PropShape := ⟨geomOfPosition, some geomPosition, some 1, some 1⟩

/-- The shapes graph parsed from `shacl_str`. -/
def shaclShapes : ShapesGraph :=
  ⟨[⟨geomPositionReferenceShape, geomPositionReference, [.inline ofPositionShape]⟩,
    ⟨geomPositionCoordinateShape, geomPositionCoordinate, [.ref geomAsSeenByShape]⟩],
   [(geomAsSeenByShape, asSeenByShape)]⟩

/-! ### Turtle and JSON-LD documents.

Modelled from the spec: text-level parsing is delegated to rdflib and pyld
(not part of the source tree); spec section 4.1 describes the semantics a
from-scratch implementation would need: expansion of compact IRIs,
`@id`/`@type` context mappings and `@base`-relative identifiers, datatype
resolution from the context, preservation of unknown terms as opaque IRIs,
and syntax errors for unresolved prefixes. -/

/-- One entry of a JSON-LD `@context`: a namespace definition
(plain string value), a term mapped to an IRI-valued property
(`"@type": "@id"`), or a term mapped to a typed-literal property. -/
inductive CtxDef where
  | nsDef (iri : String)
  | idTerm (iri : String)
  | dtTerm (iri : String) (datatype : String)
deriving DecidableEq, Repr

/-- A JSON-LD `@context`: an optional `@base` plus term definitions. -/
structure JsonLdCtx where
  base : Option String
  defs : List (String × CtxDef)
deriving DecidableEq, Repr

/-- Look up a term in the context definitions. -/
def findCtx (defs : List (String × CtxDef)) (k : String) : Option CtxDef :=
  (defs.find? (fun p => p.1 == k)).map (fun p => p.2)

/-- Split a character list at its first colon. -/
def splitColonChars : List Char → Option (List Char × List Char)
  | [] => none
  | c :: rest =>
      if c = Char.ofNat 58 then some ([], rest)
      else
        match splitColonChars rest with
        | some (l, r) => some (c :: l, r)
        | none => none

/-- Split a name at its first colon into a candidate prefix and suffix,
when a colon occurs. -/
def splitColon (s : String) : Option (String × String) :=
  match splitColonChars s.data with
  | some (l, r) => some (⟨l⟩, ⟨r⟩)
  | none => none

/-- Modelled from the spec: expand a possibly-compact IRI against the
context (spec 4.1): `p:suffix` with a namespace definition for `p` expands
to the namespace IRI followed by the suffix; anything else is preserved as
an opaque IRI. -/
def expandIri (defs : List (String × CtxDef)) (s : String) : String :=
  match splitColon s with
  | none => s
  | some (pre, rest) =>
      match findCtx defs pre with
      | some (.nsDef ns) => ns ++ rest
      | _ => s

/-- Modelled from the spec: expand a node identifier (spec 4.1): a name
without a colon is `@base`-relative; otherwise it is a compact or absolute
IRI. -/
def expandId (ctx : JsonLdCtx) (s : String) : String :=
  match splitColon s with
  | none =>
      match ctx.base with
      | some b => b ++ s
      | none => s
  | some _ => expandIri ctx.defs s

/-- A property value in a JSON-LD node object: a raw JSON string (whose
interpretation the context decides), an explicit `@id` object, or an
explicit `@value`/`@type` object. -/
inductive JVal where
  | raw (s : String)
  | idObj (s : String)
  | valObj (value : String) (datatype : String)
deriving DecidableEq, Repr

/-- A node object of a JSON-LD `@graph`. -/
structure JNode where
  id : String
  types : List String
  props : List (String × JVal)
deriving DecidableEq, Repr

/-- A JSON-LD document: a context and a list of node objects. -/
structure JsonLdDoc where
  ctx : JsonLdCtx
  graph : List JNode
deriving DecidableEq, Repr

/-- Modelled from the spec: the triple produced by one property of a node
object (spec 4.1): the key resolves through the context to a predicate
IRI; an `@type: @id` term makes the raw value an IRI, a datatype term
resolves the literal's datatype from the context, an unknown term yields a
plain string literal; explicit `@id`/`@value` objects carry their own
interpretation. -/
def propTriple (ctx : JsonLdCtx) (subj : String) (kv : String × JVal) : Triple :=
  let pred :=
    match findCtx ctx.defs kv.1 with
    | some (.idTerm piri) => expandIri ctx.defs piri
    | some (.dtTerm piri _) => expandIri ctx.defs piri
    | _ => expandIri ctx.defs kv.1
  let obj : Term :=
    match kv.2, findCtx ctx.defs kv.1 with
    | .raw v, some (.idTerm _) => .iri (expandId ctx v)
    | .raw v, some (.dtTerm _ dt) => .lit v (expandIri ctx.defs dt)
    | .raw v, _ => .lit v xsdString
    | .idObj v, _ => .iri (expandId ctx v)
    | .valObj v dt, _ => .lit v (expandIri ctx.defs dt)
  ⟨subj, pred, obj⟩

/-- The triples of one node object: its `@type` assertions plus its
properties. -/
def nodeTriples (ctx : JsonLdCtx) (n : JNode) : List Triple :=
  n.types.map (fun ty => ⟨expandId ctx n.id, rdfType, .iri (expandId ctx ty)⟩) ++
  n.props.map (propTriple ctx (expandId ctx n.id))

/-- Modelled from the spec: JSON-LD parsing (spec 4.1): expand ids, types
and terms against the context and collect the triples of all node
objects. -/
def parseJsonLd (doc : JsonLdDoc) : Graph :=
  Graph.ofList (doc.graph.flatMap (nodeTriples doc.ctx))

/-- A Turtle subject or predicate: a full IRI reference or a prefixed
name. -/
inductive TtlNode where
  | iriRef (s : String)
  | prefixed (pfx loc : String)
deriving DecidableEq, Repr

/-- A Turtle object: a node or a typed literal. -/
inductive TtlObj where
  | node (n : TtlNode)
  | lit (value : String) (datatype : TtlNode)
deriving DecidableEq, Repr

/-- A Turtle document: `@prefix` declarations plus statements. -/
structure TurtleDoc where
  pfxs : List (String × String)
  stmts : List (TtlNode × TtlNode × TtlObj)
deriving DecidableEq, Repr

/-- Modelled from the spec: a parse failure: an unresolved prefix
identifies the offending fragment (spec 7). -/
inductive SyntaxErr where
  | unresolved (pfx : String)
deriving DecidableEq, Repr

/-- Expand a Turtle node against the `@prefix` declarations (spec 4.1);
an unresolved prefix is a syntax error (spec 7). -/
def expandTtlNode (pfxs : List (String × String)) : TtlNode → Except SyntaxErr String
  | .iriRef s => .ok s
  | .prefixed p l =>
      match (pfxs.find? (fun q => q.1 == p)).map (fun q => q.2) with
      | some ns => .ok (ns ++ l)
      | none => .error (.unresolved p)

/-- Expand a Turtle object to a term. -/
def expandTtlObj (pfxs : List (String × String)) : TtlObj → Except SyntaxErr Term
  | .node n => (expandTtlNode pfxs n).map .iri
  | .lit v d => (expandTtlNode pfxs d).map (.lit v)

/-- Expand all statements of a Turtle document. -/
def parseStmts (pfxs : List (String × String)) :
    List (TtlNode × TtlNode × TtlObj) → Except SyntaxErr (List Triple)
  | [] => .ok []
  | (s, p, o) :: rest => do
      let si ← expandTtlNode pfxs s
      let pi ← expandTtlNode pfxs p
      let oi ← expandTtlObj pfxs o
      let ts ← parseStmts pfxs rest
      pure (⟨si, pi, oi⟩ :: ts)

/-- Modelled from the spec: Turtle parsing (spec 4.1): expand every
prefixed name and collect the triples. -/
def parseTurtle (doc : TurtleDoc) : Except SyntaxErr Graph :=
  (parseStmts doc.pfxs doc.stmts).map Graph.ofList

/-- One Turtle statement for a triple, with full IRI references. -/
def serTtlStmt (t : Triple) : TtlNode × TtlNode × TtlObj :=
  (.iriRef t.subject, .iriRef t.predicate,
   match t.object with
   | .iri o => .node (.iriRef o)
   | .lit v d => .lit v (.iriRef d))

/-- Modelled from the spec: Turtle serialization (spec 4.1): render every
triple with full IRI references. -/
def serializeTurtle (g : Graph) : TurtleDoc :=
  ⟨[], g.toTripleList.map serTtlStmt⟩

/-- One node object per triple, in expanded (context-free) form. -/
def serNode (t : Triple) : JNode :=
  match t.object with
  | .iri o =>
      if t.predicate = rdfType then ⟨t.subject, [o], []⟩
      else ⟨t.subject, [], [(t.predicate, .idObj o)]⟩
  | .lit v d => ⟨t.subject, [], [(t.predicate, .valObj v d)]⟩

/-- Modelled from the spec: JSON-LD serialization (spec 4.1): expanded
form with an empty context. -/
def serializeJsonLd (g : Graph) : JsonLdDoc :=
  ⟨⟨none, []⟩, g.toTripleList.map serNode⟩

/-! ### The notebook's concrete JSON-LD and Turtle documents -/

def tutorialBase : String := "https://my-url.com/model/tutorial/"

def xsdNs : String := "http://www.w3.org/2001/XMLSchema#"

def geomNs : String := "https://my-url.com/metamodel/geometry#"

/-- The `@context` of `jsonld_graph_str`. -/
def jsonldGraphCtx : JsonLdCtx :=
  ⟨some tutorialBase,
   [("xsd", .nsDef xsdNs),
    ("geom", .nsDef geomNs),
    ("of-point", .idTerm "geom:of-point"),
    ("wrt-point", .idTerm "geom:with-respect-to-point"),
    ("of-position", .idTerm "geom:of-position"),
    ("length", .dtTerm "geom:length" "xsd:double")]⟩

/-- The document `jsonld_graph_str` (the number literal 10 is written with
the lexical form `1e+01` the notebook's serialization shows for it). -/
def jsonldGraphDoc : JsonLdDoc :=
  ⟨jsonldGraphCtx,
   [⟨"box-origin", ["geom:Point"], []⟩,
    ⟨"table-origin", ["geom:Point"], []⟩,
    ⟨"position-box-table", ["geom:Position"],
     [("of-point", .raw "box-origin"), ("wrt-point", .raw "table-origin")]⟩,
    ⟨"box-distance", ["geom:PositionLength"],
     [("of-position", .raw "position-box-table"), ("length", .raw "1e+01")]⟩]⟩

/-- The Turtle serialization of `position_graph` printed by the notebook,
as a Turtle document with two `@prefix` declarations. -/
def turtleGraphDoc : TurtleDoc :=
  ⟨[("geom", geomNs), ("xsd", xsdNs)],
   [(.iriRef boxDistance, .iriRef rdfType, .node (.prefixed "geom" "PositionLength")),
    (.iriRef boxDistance, .prefixed "geom" "length", .lit "1e+01" (.prefixed "xsd" "double")),
    (.iriRef boxDistance, .prefixed "geom" "of-position", .node (.iriRef positionBoxTable)),
    (.iriRef boxOrigin, .iriRef rdfType, .node (.prefixed "geom" "Point")),
    (.iriRef positionBoxTable, .iriRef rdfType, .node (.prefixed "geom" "Position")),
    (.iriRef positionBoxTable, .prefixed "geom" "of-point", .node (.iriRef boxOrigin)),
    (.iriRef positionBoxTable, .prefixed "geom" "with-respect-to-point",
     .node (.iriRef tableOrigin)),
    (.iriRef tableOrigin, .iriRef rdfType, .node (.prefixed "geom" "Point"))]⟩

/-! ### Helper lemmas -/

theorem Graph.foldl_add (s : Graph) (l : List Triple) :
    l.foldl Graph.add s = s ∪ l.toFinset := by
  induction l generalizing s with
  | nil => simp
  | cons t l ih =>
      simp only [List.foldl_cons, List.toFinset_cons]
      rw [Graph.add, ih, Finset.insert_union, Finset.union_insert]

theorem Graph.ofList_eq (l : List Triple) : Graph.ofList l = l.toFinset := by
  unfold Graph.ofList
  rw [Graph.foldl_add]
  exact Finset.empty_union _

theorem Finset.sortedList_coe {α : Type} [LinearOrder α] (s : Finset α) :
    ((s.sortedList : List α) : Multiset α) = s.val := by
  obtain ⟨m, hm⟩ := s
  revert hm
  induction m using Quot.inductionOn with
  | h l =>
      intro hm
      exact Quot.sound (List.perm_insertionSort _ _)

theorem Graph.mem_toTripleList {g : Graph} {t : Triple} : t ∈ g.toTripleList ↔ t ∈ g := by
  unfold Graph.toTripleList
  rw [← Multiset.mem_coe, Finset.sortedList_coe]
  exact Iff.rfl

theorem Graph.ofList_toTripleList (g : Graph) : Graph.ofList g.toTripleList = g := by
  rw [Graph.ofList_eq]
  ext t
  rw [List.mem_toFinset, Graph.mem_toTripleList]

theorem expandIri_nil (s : String) : expandIri [] s = s := by
  unfold expandIri
  split
  · rfl
  · rfl

theorem expandId_empty (s : String) : expandId ⟨none, []⟩ s = s := by
  unfold expandId
  split
  · rfl
  · exact expandIri_nil s

theorem nodeTriples_serNode (t : Triple) : nodeTriples ⟨none, []⟩ (serNode t) = [t] := by
  obtain ⟨s, p, o⟩ := t
  cases o with
  | iri v =>
      by_cases hp : p = rdfType
      · subst hp
        simp [serNode, nodeTriples, expandId_empty]
      · simp [serNode, hp, nodeTriples, expandId_empty, propTriple, findCtx, expandIri_nil]
  | lit v d =>
      simp [serNode, nodeTriples, expandId_empty, propTriple, findCtx, expandIri_nil]

theorem flatMap_nodeTriples_serNode (l : List Triple) :
    (l.map serNode).flatMap (nodeTriples ⟨none, []⟩) = l := by
  induction l with
  | nil => rfl
  | cons t l ih => simp [nodeTriples_serNode, ih]

theorem roundtrip_jsonld (g : Graph) : parseJsonLd (serializeJsonLd g) = g := by
  unfold parseJsonLd serializeJsonLd
  rw [flatMap_nodeTriples_serNode, Graph.ofList_toTripleList]

theorem parseStmts_serTtlStmt (l : List Triple) :
    parseStmts [] (l.map serTtlStmt) = .ok l := by
  induction l with
  | nil => rfl
  | cons t l ih =>
      obtain ⟨s, p, o⟩ := t
      cases o <;>
        simp [parseStmts, serTtlStmt, expandTtlNode, expandTtlObj, ih, Bind.bind, Except.bind,
          Except.map, pure, Except.pure]

theorem roundtrip_turtle (g : Graph) : parseTurtle (serializeTurtle g) = .ok g := by
  unfold parseTurtle serializeTurtle
  rw [parseStmts_serTtlStmt]
  simp [Except.map, Graph.ofList_toTripleList]

/-! ### Reuse of property shapes: reference versus inlining -/

/-- A shapes graph in which one standalone property shape named `sname` is
referenced by IRI from two different node shapes. -/
def refTwiceShapes (nameA clsA nameB clsB sname : String) (ps : PropShape) : ShapesGraph :=
  ⟨[⟨nameA, clsA, [.ref sname]⟩, ⟨nameB, clsB, [.ref sname]⟩], [(sname, ps)]⟩

/-- The same two node shapes with the property shape inlined in each. -/
def inlineTwiceShapes (nameA clsA nameB clsB : String) (ps : PropShape) : ShapesGraph :=
  ⟨[⟨nameA, clsA, [.inline ps]⟩, ⟨nameB, clsB, [.inline ps]⟩], []⟩

/-- A violation record with its source-shape field cleared. -/
def Violation.clearSource (v : Violation) : Violation :=
  ⟨v.component, none, v.focusNode, v.resultPath, v.value, v.expectedClass, v.message⟩

theorem map_clearSource_if (c : Prop) [Decidable c] (comp : ShComponent) (src : Option String)
    (f p : String) (val : Option Term) (ec : Option String) (msg : String) :
    (if c then [(⟨comp, src, f, p, val, ec, msg⟩ : Violation)] else []).map Violation.clearSource =
      (if c then [(⟨comp, none, f, p, val, ec, msg⟩ : Violation)] else []).map
        Violation.clearSource := by
  split <;> simp [Violation.clearSource]

theorem map_clearSource_filterMap (g : Graph) (c : String) (src : Option String)
    (f p : String) (l : List Term) :
    (l.filterMap (fun v => if g.isInstanceOf v c then none
        else some (⟨.classC, src, f, p, some v, some c,
          "Value does not have class " ++ c⟩ : Violation))).map Violation.clearSource =
      (l.filterMap (fun v => if g.isInstanceOf v c then none
        else some (⟨.classC, none, f, p, some v, some c,
          "Value does not have class " ++ c⟩ : Violation))).map Violation.clearSource := by
  induction l with
  | nil => rfl
  | cons v l ih =>
      by_cases hic : g.isInstanceOf v c = true
      · simp [List.filterMap_cons, hic, ih]
      · simp [List.filterMap_cons, hic, ih, Violation.clearSource]

theorem checkProp_clearSource (g : Graph) (f : String) (src : Option String) (ps : PropShape) :
    (g.checkProp f src ps).map Violation.clearSource =
      (g.checkProp f none ps).map Violation.clearSource := by
  obtain ⟨path, cc, mn, mx⟩ := ps
  cases mn <;> cases mx <;> cases cc <;>
    simp only [Graph.checkProp, List.map_append, List.map_nil, List.nil_append, List.append_nil,
      map_clearSource_if, map_clearSource_filterMap]

theorem flatMap_checkProp_clearSource (g : Graph) (l : List String) (src : Option String)
    (ps : PropShape) :
    (l.flatMap (fun f => g.checkProp f src ps)).map Violation.clearSource =
      (l.flatMap (fun f => g.checkProp f none ps)).map Violation.clearSource := by
  induction l with
  | nil => rfl
  | cons a l ih =>
      simp only [List.flatMap_cons, List.map_append, ih, checkProp_clearSource]

theorem isEmpty_eq_of_map_clearSource {A B : List Violation}
    (h : A.map Violation.clearSource = B.map Violation.clearSource) :
    A.isEmpty = B.isEmpty := by
  cases A <;> cases B <;> simp_all

/-! ### Claim theorems -/

/-- C4: for every pair of valid Turtle and JSON-LD inputs describing the
same graph, parsing either input, serializing the result to the other
format, and re-parsing yields a graph whose triple set is identical to the
original. -/
theorem C4_roundtrip (dt : TurtleDoc) (dj : JsonLdDoc) (g : Graph)
    (ht : parseTurtle dt = .ok g) (hj : parseJsonLd dj = g) :
    parseJsonLd (serializeJsonLd g) = g ∧ parseTurtle (serializeTurtle g) = .ok g :=
  ⟨roundtrip_jsonld g, roundtrip_turtle g⟩

set_option maxRecDepth 100000 in
theorem C4_roundtrip_witness :
    parseTurtle turtleGraphDoc = .ok positionGraph ∧
    parseJsonLd jsonldGraphDoc = positionGraph ∧
    (parseJsonLd (serializeJsonLd positionGraph) = positionGraph ∧
     parseTurtle (serializeTurtle positionGraph) = .ok positionGraph) :=
  ⟨by decide, by decide,
   C4_roundtrip turtleGraphDoc jsonldGraphDoc positionGraph (by decide) (by decide)⟩

/-- C6: validation leaves both input graphs unchanged: the run returns the
data graph and the shapes graph exactly as given (the rdfs-inference
expansion lives only in an internal copy), alongside the verdict of
`validate`. -/
theorem C6_validation_pure (dg : Graph) (sg : ShapesGraph) :
    (validateRun dg sg).2.1 = dg ∧ (validateRun dg sg).2.2 = sg ∧
      (validateRun dg sg).1 = validate dg sg :=
  ⟨rfl, rfl, rfl⟩

/-- C7: adding a triple that is already a member of a graph yields an
equal graph; in particular the size is unchanged (set semantics,
idempotent union). -/
theorem C7_add_idempotent (g : Graph) (t : Triple) (h : t ∈ g) :
    g.add t = g ∧ (g.add t).size = g.size := by
  have he : g.add t = g := Finset.insert_eq_self.mpr h
  exact ⟨he, by rw [he]⟩

theorem C7_add_idempotent_witness :
    (⟨boxOrigin, rdfType, .iri geomPoint⟩ : Triple) ∈ positionGraph ∧
    (positionGraph.add ⟨boxOrigin, rdfType, .iri geomPoint⟩ = positionGraph ∧
     (positionGraph.add ⟨boxOrigin, rdfType, .iri geomPoint⟩).size = positionGraph.size) :=
  ⟨by decide, C7_add_idempotent positionGraph _ (by decide)⟩

set_option maxRecDepth 100000 in
/-- C5 counterexample: the claim fails as literally stated: on the mutated
example graph, a shapes graph in which geom:AsSeenByShape is referenced by
IRI from two node shapes does not produce identical violation records to
the shapes graph inlining the same constraints, because the source-shape
field of the violations differs (the notebook's own report likewise names
geom:AsSeenByShape for the referenced shape but prints the anonymous
inline shape for the inlined one). -/
theorem C5_counterexample :
    validate invalidGraph
        (refTwiceShapes geomPositionReferenceShape geomPositionReference
          geomPositionCoordinateShape geomPositionCoordinate geomAsSeenByShape asSeenByShape) ≠
      validate invalidGraph
        (inlineTwiceShapes geomPositionReferenceShape geomPositionReference
          geomPositionCoordinateShape geomPositionCoordinate asSeenByShape) := by decide

/-- C5 (amended): a property shape defined once and referenced by IRI from
two different node shapes produces, for every data graph, the same
conforms flag and the same violation records up to the source-shape field
as inlining the same constraints in each node shape. -/
theorem C5_ref_vs_inline (dg : Graph) (nameA clsA nameB clsB sname : String) (ps : PropShape) :
    (validate dg (refTwiceShapes nameA clsA nameB clsB sname ps)).map (fun r =>
        (r.conforms, r.violations.map Violation.clearSource)) =
      (validate dg (inlineTwiceShapes nameA clsA nameB clsB ps)).map (fun r =>
        (r.conforms, r.violations.map Violation.clearSource)) := by
  have hfind : List.find? (fun p => p.1 == sname) [(sname, ps)] = some (sname, ps) := by
    simp [List.find?]
  cases hwf : ps.wellFormed with
  | false =>
      simp [validate, checkNodeShapes, Graph.checkNodeShape, resolvePropRefs, resolvePropRef,
        refTwiceShapes, inlineTwiceShapes, admitShape, hwf, hfind, Bind.bind, Except.bind]
  | true =>
      have h1 := flatMap_checkProp_clearSource (rdfsInferTypes dg)
        ((rdfsInferTypes dg).focusNodes clsA) (some sname) ps
      have h2 := flatMap_checkProp_clearSource (rdfsInferTypes dg)
        ((rdfsInferTypes dg).focusNodes clsB) (some sname) ps
      have hmap : (((rdfsInferTypes dg).focusNodes clsA).flatMap
            (fun f => (rdfsInferTypes dg).checkProp f (some sname) ps) ++
          ((rdfsInferTypes dg).focusNodes clsB).flatMap
            (fun f => (rdfsInferTypes dg).checkProp f (some sname) ps)).map
            Violation.clearSource =
          (((rdfsInferTypes dg).focusNodes clsA).flatMap
            (fun f => (rdfsInferTypes dg).checkProp f none ps) ++
          ((rdfsInferTypes dg).focusNodes clsB).flatMap
            (fun f => (rdfsInferTypes dg).checkProp f none ps)).map Violation.clearSource := by
        simp only [List.map_append, h1, h2]
      have hempty := isEmpty_eq_of_map_clearSource hmap
      simp [validate, checkNodeShapes, Graph.checkNodeShape, resolvePropRefs, resolvePropRef,
        refTwiceShapes, inlineTwiceShapes, admitShape, hwf, hfind, Bind.bind, Except.bind,
        pure, Except.pure, ValidationReport.ofViolations, Except.map]
      constructor
      · simpa using hempty
      · simpa using hmap

/-- The triple pattern `?v a cls`. -/
def typePattern (v cls : String) : TriplePattern :=
  ⟨.var v, .pred rdfType, .const (.iri cls)⟩

set_option maxRecDepth 1000000 in
/-- C1: the three notebook CONSTRUCT queries for
`?position geom:as-seen-by ?frame` — class-first with chaining,
reverse-path-first, and reverse-path-first with chaining — all return the
identical singleton result graph linking position-box-table to
frame-table; in general, permuting the patterns of a WHERE clause never
changes the constructed result. -/
theorem C1_query_orderings_equivalent :
    (fullGraph.construct whereClassFirst queryTemplate = asSeenByResult ∧
     fullGraph.construct whereReverseFirst queryTemplate = asSeenByResult ∧
     fullGraph.construct whereReverseChain queryTemplate = asSeenByResult) ∧
    ∀ (g : Graph) (pats pats' : List TriplePattern) (tmpl : List TemplateTriple),
      pats.Perm pats' → g.construct pats tmpl = g.construct pats' tmpl := by
  constructor
  · exact ⟨by decide, by decide, by decide⟩
  · intro g pats pats' tmpl hp
    have hv : patternVars pats = patternVars pats' := by
      unfold patternVars
      have hfin : (pats.flatMap TriplePattern.varList).toFinset =
          (pats'.flatMap TriplePattern.varList).toFinset := by
        ext a
        simp only [List.mem_toFinset, List.mem_flatMap]
        constructor
        · rintro ⟨tp, htp, ha⟩
          exact ⟨tp, hp.mem_iff.mp htp, ha⟩
        · rintro ⟨tp, htp, ha⟩
          exact ⟨tp, hp.mem_iff.mpr htp, ha⟩
      rw [hfin]
    have hsol : g.solutions pats = g.solutions pats' := by
      unfold Graph.solutions
      rw [hv]
      refine List.filter_congr ?_
      intro b _
      rw [Bool.eq_iff_iff]
      simp only [List.all_eq_true]
      exact ⟨fun H x hx => H x (hp.mem_iff.mpr hx), fun H x hx => H x (hp.mem_iff.mp hx)⟩
    unfold Graph.construct
    rw [hsol]

set_option maxRecDepth 1000000 in
theorem C1_query_orderings_equivalent_witness :
    ([typePattern "posCoord" geomPositionCoordinate,
      typePattern "posCoord" geomPositionReference].Perm
     [typePattern "posCoord" geomPositionReference,
      typePattern "posCoord" geomPositionCoordinate]) ∧
    fullGraph.construct
        [typePattern "posCoord" geomPositionCoordinate,
         typePattern "posCoord" geomPositionReference] queryTemplate =
      fullGraph.construct
        [typePattern "posCoord" geomPositionReference,
         typePattern "posCoord" geomPositionCoordinate] queryTemplate :=
  ⟨by decide,
   C1_query_orderings_equivalent.2 fullGraph _ _ queryTemplate (by decide)⟩

set_option maxRecDepth 1000000 in
/-- C2: validating the mutated graph yields conforms = false with exactly
two violations: one ClassConstraintComponent with result path
geom:of-position and expected class geom:Position, and one
MinCountConstraintComponent with result path geom:as-seen-by whose value
count 0 falls short of the required minCount 1. -/
theorem C2_invalid_graph_two_violations :
    (validate invalidGraph shaclShapes).map (fun r =>
        (r.conforms, r.violations.length,
         (r.violations.filter (fun v => decide (v.component = ShComponent.classC ∧
            v.resultPath = geomOfPosition ∧ v.expectedClass = some geomPosition))).length,
         (r.violations.filter (fun v => decide (v.component = ShComponent.minCountC ∧
            v.resultPath = geomAsSeenBy))).length)) = .ok (false, 2, 1, 1) ∧
    ((rdfsInferTypes invalidGraph).objectsOf positionCoordBoxTable geomAsSeenBy).length = 0 ∧
    asSeenByShape.minCount = some 1 := by decide

set_option maxRecDepth 1000000 in
/-- C3: validating the well-formed example graph against the example
shapes graph yields conforms = true with zero violations. -/
theorem C3_valid_graph_conforms :
    validate fullGraph shaclShapes = .ok ⟨true, []⟩ := by decide

set_option maxRecDepth 1000000 in
/-- C8: a multi-type pattern binds a node only when the graph asserts
every listed type for it, and a node carrying additional types still
matches: concretely, position-coord-box-table — typed PositionReference,
PositionCoordinate and VectorXYZ — matches the pattern requiring
PositionCoordinate and PositionReference. -/
theorem C8_multi_type_constraint :
    (∀ (g : Graph) (clsA clsB : String) (pats : List TriplePattern) (v : String)
        (b : Binding) (t : Term),
      typePattern v clsA ∈ pats → typePattern v clsB ∈ pats →
      b ∈ g.solutions pats → b.lookupVar v = some t →
      ∃ n, t = Term.iri n ∧ (⟨n, rdfType, .iri clsA⟩ : Triple) ∈ g ∧
        (⟨n, rdfType, .iri clsB⟩ : Triple) ∈ g) ∧
    ([("posCoord", Term.iri positionCoordBoxTable)] : Binding) ∈
      fullGraph.solutions
        [typePattern "posCoord" geomPositionCoordinate,
         typePattern "posCoord" geomPositionReference] ∧
    (⟨positionCoordBoxTable, rdfType, .iri geomVectorXYZ⟩ : Triple) ∈ fullGraph := by
  refine ⟨?_, by decide, by decide⟩
  intro g clsA clsB pats v b t hA hB hsol hlook
  have hall : pats.all (g.matchesPattern b) = true := (List.mem_filter.mp hsol).2
  have hmA : g.matchesPattern b (typePattern v clsA) = true := List.all_eq_true.mp hall _ hA
  have hmB : g.matchesPattern b (typePattern v clsB) = true := List.all_eq_true.mp hall _ hB
  simp only [Graph.matchesPattern, typePattern, PTerm.resolve, hlook] at hmA hmB
  cases t with
  | lit lv ld => simp [Graph.pathHolds] at hmA
  | iri n =>
      simp only [Graph.pathHolds, decide_eq_true_eq] at hmA hmB
      exact ⟨n, rfl, hmA, hmB⟩

set_option maxRecDepth 1000000 in
theorem C8_multi_type_constraint_witness :
    ∃ n, Term.iri positionCoordBoxTable = Term.iri n ∧
      (⟨n, rdfType, .iri geomPositionCoordinate⟩ : Triple) ∈ fullGraph ∧
      (⟨n, rdfType, .iri geomPositionReference⟩ : Triple) ∈ fullGraph :=
  C8_multi_type_constraint.1 fullGraph geomPositionCoordinate geomPositionReference
    [typePattern "posCoord" geomPositionCoordinate,
     typePattern "posCoord" geomPositionReference]
    "posCoord" [("posCoord", Term.iri positionCoordBoxTable)]
    (Term.iri positionCoordBoxTable) (by decide) (by decide) (by decide) (by decide)

/-- C9: no match is never an error: a CONSTRUCT query whose WHERE clause
admits no solution binding returns the empty graph, and every validation
that returns a report (also one that finds violations) has its conforms
flag computed as the emptiness of the violation list — a normal value, not
an exception. -/
theorem C9_no_match_not_error :
    (∀ (g : Graph) (pats : List TriplePattern) (tmpl : List TemplateTriple),
      g.solutions pats = [] → g.construct pats tmpl = ∅) ∧
    (∀ (dg : Graph) (sg : ShapesGraph) (r : ValidationReport),
      validate dg sg = .ok r → r.conforms = r.violations.isEmpty) := by
  constructor
  · intro g pats tmpl h
    simp [Graph.construct, h]
  · intro dg sg r h
    unfold validate at h
    cases hc : checkNodeShapes (rdfsInferTypes dg) sg sg.nodeShapes with
    | error e =>
        rw [hc] at h
        simp [Bind.bind, Except.bind] at h
    | ok vs =>
        rw [hc] at h
        simp only [Bind.bind, Except.bind, pure, Except.pure, Except.ok.injEq] at h
        rw [← h]
        rfl

/-- The violation records of the notebook's mutated-graph validation. -/
def invalidReportViolations : List Violation :=
  [⟨.classC, none, positionCoordBoxTable, geomOfPosition, some (.iri frameTable),
    some geomPosition, "Value does not have class " ++ geomPosition⟩,
   ⟨.minCountC, some geomAsSeenByShape, positionCoordBoxTable, geomAsSeenBy, none, none,
    "Less than " ++ toString 1 ++ " values on " ++ positionCoordBoxTable ++ "->" ++ geomAsSeenBy⟩]

set_option maxRecDepth 1000000 in
theorem C9_no_match_not_error_witness :
    (positionGraph.solutions whereClassFirst = [] ∧
     positionGraph.construct whereClassFirst queryTemplate = ∅) ∧
    (ValidationReport.ofViolations invalidReportViolations).conforms =
      (ValidationReport.ofViolations invalidReportViolations).violations.isEmpty :=
  ⟨⟨by decide, C9_no_match_not_error.1 positionGraph whereClassFirst queryTemplate (by decide)⟩,
   C9_no_match_not_error.2 invalidGraph shaclShapes _ (by decide)⟩

set_option maxRecDepth 1000000 in
/-- C10: in the mutated-graph validation the path geom:of-position has
value count exactly 1 — satisfying its shape's minCount 1 and maxCount 1
and producing no MinCount or MaxCount violation — even though that single
value fails the class constraint: cardinality is counted over all values
of the path regardless of their class conformance. -/
theorem C10_cardinality_ignores_conformance :
    ((rdfsInferTypes invalidGraph).objectsOf positionCoordBoxTable geomOfPosition).length = 1 ∧
    (invalidGraph.objectsOf positionCoordBoxTable geomOfPosition).length = 1 ∧
    ofPositionShape.minCount = some 1 ∧ ofPositionShape.maxCount = some 1 ∧
    (validate invalidGraph shaclShapes).map (fun r =>
        ((r.violations.filter (fun v => decide (v.resultPath = geomOfPosition ∧
           (v.component = ShComponent.minCountC ∨ v.component = ShComponent.maxCountC)))).length,
         (r.violations.filter (fun v => decide (v.resultPath = geomOfPosition ∧
           v.component = ShComponent.classC ∧
           v.value = some (Term.iri frameTable)))).length)) = .ok (0, 1) := by decide
